import Mathlib

/-!
Shallow embedding of `src/vlc-3.0.20/modules/video_filter/trim.c`.

The file models, faithfully to the C source:
  * `parse_time` (sscanf "%d:%d" semantics, line 258-266);
  * the stream-setup loop of `Trim` (lines 136-157), including the
    `video_stream_idx` scan;
  * the packet relay loop of `Trim` (lines 181-248) with keyframe gating,
    origin capture, monotonicity enforcement, pts/dts repair, duration
    rescale and interleaved write;
  * the surrounding control flow of `Trim` (lines 101-256), with external
    libavformat calls (open, alloc, avio_open, write_header, seek, write,
    trailer, cleanup) represented by success/failure oracles and an action
    trace.

Conventions: C `int64_t` timestamps are mathematical integers with
`AV_NOPTS_VALUE = -(2^63)` as the "unset" sentinel, exactly as in libavformat;
`AVRational` time bases and the `double` presentation-time computation are
modelled with exact rationals (the claims under study do not depend on
floating-point rounding at window boundaries).  An out-of-bounds stream-array
access (which is undefined behaviour in the C) makes the model return `none`.
-/

/-- The int64 sentinel `AV_NOPTS_VALUE` for an unset timestamp. -/
def NOPTS : Int := -(2 ^ 63)

/-- Media kinds (`AVMEDIA_TYPE_*`), restricted to what the filter distinguishes. -/
inductive MediaKind where
  | video
  | audio
  | other
deriving DecidableEq, Repr

/-- The slice of `AVStream` the filter reads: codec type, time base,
codec parameters (opaque, identified by a tag). -/
structure AVStream where
  kind : MediaKind
  time_base : ℚ
  codecpar : Nat
deriving DecidableEq, Repr

/-- The slice of `AVPacket` the filter reads and writes. -/
structure Packet where
  stream_index : Nat
  pts : Int
  dts : Int
  duration : Int
  flags_key : Bool
  pos : Int
deriving DecidableEq, Repr

/-- The `StreamContext` record from trim.c lines 18-22. -/
structure StreamContext where
  start_pts : Int
  start_dts : Int
  time_base : Option ℚ
deriving DecidableEq, Repr

/-- An output stream as built by the setup loop: time base and codec
parameters copied verbatim from the source stream. -/
structure OutStream where
  time_base : ℚ
  codecpar : Nat
deriving DecidableEq, Repr

/-- Mutable state of the relay loop (lines 177-179 plus the per-stream
contexts). -/
structure RelayState where
  ctx : List StreamContext
  got_video_keyframe : Bool
  last_video_dts : Int
deriving DecidableEq, Repr

/-- How the read loop of lines 181-248 terminated. -/
inductive ExitKind where
  | endOfInput
  | endOfWindow
  | writeError
deriving DecidableEq, Repr

/-- Error taxonomy: each constructor corresponds to one `return 1` site of
`Trim` (resp. the `exit(1)` of `parse_time`). -/
inductive TrimError where
  | malformedTime
  | invalidWindow
  | sourceOpenError
  | outputFormatUnresolvable
  | streamCtxAllocError
  | streamCreateError
  | outputWriteError
  | seekFailure
deriving DecidableEq, Repr

/-- Result code of the `Trim` call. -/
inductive TrimOutcome where
  | ok
  | err (e : TrimError)
deriving DecidableEq, Repr

/-- External libavformat calls made by `Trim`, in call order. -/
inductive TrimAction where
  | openInput
  | allocOutput
  | openOutputFile
  | writeHeader
  | seek (stream_idx : Int) (target : Int)
  | writeTrailer
  | cleanup
deriving DecidableEq, Repr

/-- Success/failure of each external call that can fail, supplied by the
environment.  `writeOk n` is the outcome of the `n`-th
`av_interleaved_write_frame` attempt. -/
structure Oracles where
  openInputOk : Bool
  allocOutputOk : Bool
  allocCtxOk : Bool
  newStreamOk : Nat → Bool
  avioOpenOk : Bool
  writeHeaderOk : Bool
  seekOk : Bool
  writeOk : Nat → Bool

/-- The source container: its stream table and the packet sequence that
`av_read_frame` yields (in read order, from the seek point). -/
structure InputContainer where
  streams : List AVStream
  packets : List Packet

/-- Observable outcome of a `Trim` call: result code, packets written to the
output, the output container's stream table, the trace of external calls, and
(which way) the relay loop exited, when it was reached. -/
structure TrimResult where
  result : TrimOutcome
  emitted : List Packet
  outStreams : List OutStream
  trace : List TrimAction
  exitKind : Option ExitKind
deriving DecidableEq, Repr

/-! ### parse_time (trim.c lines 258-266): sscanf "%d:%d" semantics -/

/-- Whitespace skipped by a `%d` conversion. -/
def isSpaceChar (c : Char) : Bool :=
  c = ' ' ∨ c = '\t' ∨ c = '\n' ∨ c = '\r' ∨ c = '\x0b' ∨ c = '\x0c'

/-- Drop leading whitespace. -/
def skipWs : List Char → List Char
  | [] => []
  | c :: cs => if isSpaceChar c then skipWs cs else c :: cs

/-- Value of a digit string, most significant first, folded onto `acc`. -/
def digitsVal (acc : Nat) : List Char → Nat
  | [] => acc
  | c :: cs => digitsVal (acc * 10 + (c.toNat - '0'.toNat)) cs

/-- Scan a maximal nonempty run of decimal digits. -/
def scanDigits (cs : List Char) : Option (Nat × List Char) :=
  let ds := cs.takeWhile Char.isDigit
  if ds = [] then none else some (digitsVal 0 ds, cs.dropWhile Char.isDigit)

/-- One `%d` conversion: skip whitespace, optional sign, digits. -/
def scanIntField (cs : List Char) : Option (Int × List Char) :=
  match skipWs cs with
  | [] => none
  | c :: rest =>
    if c = '-' then (scanDigits rest).map fun p => (-(p.1 : Int), p.2)
    else if c = '+' then (scanDigits rest).map fun p => ((p.1 : Int), p.2)
    else (scanDigits (c :: rest)).map fun p => ((p.1 : Int), p.2)

/-- trim.c lines 258-266: `sscanf(time_str, "%d:%d", &m, &s)`; both fields
must be assigned, otherwise the process exits (modelled as `none`).  On
success the result is `m * 60 + s`. -/
def parse_time (s : String) : Option Int :=
  match scanIntField s.data with
  | none => none
  | some (m, rest) =>
    match rest with
    | c :: rest2 =>
      if c = ':' then
        match scanIntField rest2 with
        | none => none
        | some (sec, _) => some (m * 60 + sec)
      else none
    | [] => none

/-! ### The caller's time formatting (trim.c lines 72-75, `snprintf "%02d:%02d"`) -/

/-- Decimal digit character. -/
def digitChar (n : Nat) : Char := Char.ofNat ('0'.toNat + n)

/-- Decimal digits of `n`, most significant first (`%d` for a non-negative
value). -/
def natDigits (n : Nat) : List Char :=
  if _h : n < 10 then [digitChar n]
  else natDigits (n / 10) ++ [digitChar (n % 10)]
decreasing_by exact Nat.div_lt_self (by omega) (by omega)

/-- Format `%02d` of a non-negative value: pad to two characters with a zero. -/
def fmt02 (n : Nat) : List Char :=
  if n < 10 then '0' :: natDigits n else natDigits n

/-- The `mm:ss` string built by `Create` (lines 73-75). -/
def fmtTime (m s : Nat) : String :=
  String.mk (fmt02 m ++ ':' :: fmt02 s)

/-! ### Rescaling helpers (av_rescale_q with AV_ROUND_NEAR_INF) -/

/-- Division `x / y` for `y > 0`, rounded to nearest with halfway cases away from
zero: `⌊x/y + 1/2⌋` for `x ≥ 0` and `-⌊(-x)/y + 1/2⌋` for `x < 0`,
written with floor division so that it evaluates on integers. -/
def divRoundNearAway (x y : Int) : Int :=
  if x < 0 then -(Int.fdiv (2 * (-x) + y) (2 * y))
  else Int.fdiv (2 * x + y) (2 * y)

/-- Rescaling `av_rescale_q a b c`: `a * b / c` rounded to nearest, away from zero.
The rational quotient `a * b / c` is `(a * b.num * c.den) / (b.den * c.num)`;
the sign is moved into the numerator so `divRoundNearAway` sees a positive
divisor. -/
def rescaleQ (a : Int) (b c : ℚ) : Int :=
  let x := a * b.num * (c.den : Int)
  let y := (b.den : Int) * c.num
  if y = 0 then 0
  else if y < 0 then divRoundNearAway (-x) (-y)
  else divRoundNearAway x y

def AV_TIME_BASE : Int := 1000000

def AV_TIME_BASE_Q : ℚ := mkRat 1 1000000

/-! ### Stream setup (trim.c lines 103, 136-157) -/

/-- The `video_stream_idx` scan of the setup loop: for every video stream
encountered, `video_stream_idx = i` (line 145-147), starting from the
sentinel `-1` (line 103). -/
def videoIdxScan : List AVStream → Nat → Int → Int
  | [], _, v => v
  | s :: rest, i, v =>
    videoIdxScan rest (i + 1) (if s.kind = MediaKind.video then (i : Int) else v)

/-- The stream-setup loop (lines 136-157) minus the `video_stream_idx` scan:
initializes each `StreamContext` to unset origins, skips non-audio/video
streams, and for each copied stream appends an output stream with
time base and codec parameters copied from the source stream
(`avformat_new_stream` / `avcodec_parameters_copy` failures abort, via
the `newOk` oracle). -/
def setupStreams (newOk : Nat → Bool) : List AVStream → Nat →
    Option (List StreamContext × List OutStream)
  | [], _ => some ([], [])
  | s :: rest, i =>
    if s.kind = MediaKind.audio ∨ s.kind = MediaKind.video then
      if newOk i then
        (setupStreams newOk rest (i + 1)).map fun p =>
          (⟨NOPTS, NOPTS, some s.time_base⟩ :: p.1, ⟨s.time_base, s.codecpar⟩ :: p.2)
      else none
    else
      (setupStreams newOk rest (i + 1)).map fun p =>
        (⟨NOPTS, NOPTS, none⟩ :: p.1, p.2)

/-- Placeholder stream used to express `in->streams[idx]`; packets whose
index is out of range never occur in a real container. -/
def dfltStream : AVStream := ⟨MediaKind.other, 1, 0⟩

def dfltCtx : StreamContext := ⟨NOPTS, NOPTS, none⟩

def dfltOut : OutStream := ⟨1, 0⟩

/-- The lookup `in->streams[video_stream_idx]->time_base` used by the seek-target
computation (lines 167-168): defined only when the index is within the
stream array. -/
def seekStreamTB (streams : List AVStream) (vidx : Int) : Option ℚ :=
  if 0 ≤ vidx ∧ vidx < (streams.length : Int) then
    some ((streams.getD vidx.toNat dfltStream).time_base)
  else none

/-! ### The relay loop (trim.c lines 176-248) -/

/-- Lines 213-239: processing of one accepted packet — origin capture,
origin subtraction, video dts monotonicity enforcement, video pts/dts
repair, duration rescale, `pkt.pos = -1`.  Returns the packet handed to
`av_interleaved_write_frame` and the updated state. -/
def processAccepted (streams : List AVStream) (vidx : Int)
    (outS : List OutStream) (pkt : Packet) (st : RelayState) :
    Packet × RelayState :=
  let in_stream := streams.getD pkt.stream_index dfltStream
  -- lines 213-216: one-shot origin capture, keyed on start_pts being unset;
  -- both origin fields are (re)written exactly when start_pts is unset
  let c0 := st.ctx.getD pkt.stream_index dfltCtx
  let sp := if c0.start_pts = NOPTS then pkt.pts else c0.start_pts
  let sd := if c0.start_pts = NOPTS then pkt.dts else c0.start_dts
  let c : StreamContext := ⟨sp, sd, c0.time_base⟩
  let ctx' := st.ctx.set pkt.stream_index c
  -- lines 218-220: pts origin subtraction
  let pts1 := if pkt.pts ≠ NOPTS then pkt.pts - c.start_pts else pkt.pts
  -- lines 221-230: dts origin subtraction and video monotonicity clamp
  let dl : Int × Int :=
    if pkt.dts ≠ NOPTS then
      let d0 := pkt.dts - c.start_dts
      if (pkt.stream_index : Int) = vidx then
        let d1 := if st.last_video_dts ≠ NOPTS ∧ d0 ≤ st.last_video_dts then
                    st.last_video_dts + 1
                  else d0
        (d1, d1)
      else (d0, st.last_video_dts)
    else (pkt.dts, st.last_video_dts)
  -- lines 232-236: pts/dts consistency repair, primary video stream only
  let pts2 := if (pkt.stream_index : Int) = vidx ∧ pts1 ≠ NOPTS ∧
                 dl.1 ≠ NOPTS ∧ pts1 < dl.1 then dl.1 else pts1
  -- lines 238-239: duration rescale into the output stream's time base,
  -- looked up at the unmodified source stream index; byte offset cleared
  let dur := rescaleQ pkt.duration in_stream.time_base
               (outS.getD pkt.stream_index dfltOut).time_base
  (⟨pkt.stream_index, pts2, dl.1, dur, pkt.flags_key, -1⟩,
   ⟨ctx', st.got_video_keyframe, dl.2⟩)

/-- Lines 181-248: the read loop.  `nw` counts `av_interleaved_write_frame`
attempts (to index the write oracle).  Returns the packets successfully
written, the final state, and how the loop exited. -/
def relayLoop (streams : List AVStream) (vidx : Int) (outS : List OutStream)
    (start_sec end_sec : Int) (writeOk : Nat → Bool) :
    Nat → List Packet → RelayState → List Packet × RelayState × ExitKind
  | _, [], st => ([], st, ExitKind.endOfInput)
  | nw, pkt :: rest, st =>
    let in_stream := streams.getD pkt.stream_index dfltStream
    -- lines 185-189: kind filter
    if ¬(in_stream.kind = MediaKind.audio ∨ in_stream.kind = MediaKind.video) then
      relayLoop streams vidx outS start_sec end_sec writeOk nw rest st
    else
      -- lines 191-193: presentation time `pts_seconds = t * time_base` with
      -- `t` falling back to dts when pts is unset.  The two window tests
      -- below compare `t * num / den` against the window bounds; they are
      -- written cross-multiplied by the (positive) denominator.
      let t := if pkt.pts = NOPTS then pkt.dts else pkt.pts
      let num := t * in_stream.time_base.num
      let den : Int := (in_stream.time_base.den : Int)
      -- lines 195-198: end-of-window break (`pts_seconds >= end_sec`)
      if end_sec * den ≤ num then ([], st, ExitKind.endOfWindow)
      -- lines 200-203: start-of-window skip (`pts_seconds < start_sec`)
      else if num < start_sec * den then
        relayLoop streams vidx outS start_sec end_sec writeOk nw rest st
      -- lines 205-211: keyframe gate on the primary video stream
      else if (pkt.stream_index : Int) = vidx ∧ st.got_video_keyframe = false ∧
              pkt.flags_key = false then
        relayLoop streams vidx outS start_sec end_sec writeOk nw rest st
      else
        let st1 : RelayState :=
          ⟨st.ctx,
           st.got_video_keyframe || decide ((pkt.stream_index : Int) = vidx),
           st.last_video_dts⟩
        let ps := processAccepted streams vidx outS pkt st1
        -- lines 241-245: write; on failure break out of the loop
        if writeOk nw then
          let r := relayLoop streams vidx outS start_sec end_sec writeOk
                     (nw + 1) rest ps.2
          (ps.1 :: r.1, r.2)
        else ([], ps.2, ExitKind.writeError)

/-! ### Trim (trim.c lines 101-256) -/

/-- The whole `Trim` call.  `none` means the run performs an out-of-bounds
stream-array access (undefined behaviour in the C source); otherwise the
observable outcome is returned. -/
def Trim (orc : Oracles) (inp : InputContainer) (startS endS : String) :
    Option TrimResult :=
  -- lines 106-107: parse times (parse_time exits the process on failure)
  match parse_time startS, parse_time endS with
  | some start_sec, some end_sec =>
    -- lines 109-112: window validation
    if end_sec ≤ start_sec then
      some ⟨TrimOutcome.err TrimError.invalidWindow, [], [], [], none⟩
    -- lines 115-119: open input (failure leaks `in`: no cleanup call)
    else if orc.openInputOk = false then
      some ⟨TrimOutcome.err TrimError.sourceOpenError, [], [],
            [TrimAction.openInput], none⟩
    -- lines 122-126: allocate output context
    else if orc.allocOutputOk = false then
      some ⟨TrimOutcome.err TrimError.outputFormatUnresolvable, [], [],
            [TrimAction.openInput, TrimAction.allocOutput, TrimAction.cleanup], none⟩
    -- lines 129-134: allocate stream contexts
    else if orc.allocCtxOk = false then
      some ⟨TrimOutcome.err TrimError.streamCtxAllocError, [], [],
            [TrimAction.openInput, TrimAction.allocOutput, TrimAction.cleanup], none⟩
    else
      -- lines 136-157: stream setup
      let vidx := videoIdxScan inp.streams 0 (-1)
      match setupStreams orc.newStreamOk inp.streams 0 with
      | none =>
        some ⟨TrimOutcome.err TrimError.streamCreateError, [], [],
              [TrimAction.openInput, TrimAction.allocOutput, TrimAction.cleanup], none⟩
      | some (ctx0, outS) =>
        -- line 160: avio_open, then avformat_write_header
        if orc.avioOpenOk = false then
          some ⟨TrimOutcome.err TrimError.outputWriteError, [], [],
                [TrimAction.openInput, TrimAction.allocOutput,
                 TrimAction.openOutputFile, TrimAction.cleanup], none⟩
        else if orc.writeHeaderOk = false then
          some ⟨TrimOutcome.err TrimError.outputWriteError, [], [],
                [TrimAction.openInput, TrimAction.allocOutput,
                 TrimAction.openOutputFile, TrimAction.writeHeader,
                 TrimAction.cleanup], none⟩
        else
          -- lines 167-168: seek target via in->streams[video_stream_idx]
          match seekStreamTB inp.streams vidx with
          | none => none
          | some tb =>
            let target := rescaleQ (start_sec * AV_TIME_BASE) AV_TIME_BASE_Q tb
            -- lines 169-174: av_seek_frame
            if orc.seekOk = false then
              some ⟨TrimOutcome.err TrimError.seekFailure, [], [],
                    [TrimAction.openInput, TrimAction.allocOutput,
                     TrimAction.openOutputFile, TrimAction.writeHeader,
                     TrimAction.seek vidx target, TrimAction.cleanup], none⟩
            else
              -- lines 176-252: relay loop, then unconditional trailer + cleanup
              let r := relayLoop inp.streams vidx outS start_sec end_sec
                         orc.writeOk 0 inp.packets ⟨ctx0, false, NOPTS⟩
              some ⟨TrimOutcome.ok, r.1, outS,
                    [TrimAction.openInput, TrimAction.allocOutput,
                     TrimAction.openOutputFile, TrimAction.writeHeader,
                     TrimAction.seek vidx target, TrimAction.writeTrailer,
                     TrimAction.cleanup],
                    some r.2.2⟩
  | _, _ => some ⟨TrimOutcome.err TrimError.malformedTime, [], [], [], none⟩

/-! ### Derived predicates and reference definitions -/

/-- A stream the filter copies into the output (lines 141-143). -/
def isCopied (s : AVStream) : Bool :=
  decide (s.kind = MediaKind.audio ∨ s.kind = MediaKind.video)

/-- Index of the *first* video stream, `-1` if none: the designation the
specification ascribes to the primary stream. -/
def firstVideoIdx (ss : List AVStream) : Int :=
  match ss.findIdx? (fun s => s.kind == MediaKind.video) with
  | some i => (i : Int)
  | none => -1

/-! ### Concrete containers and oracles used as test inputs -/

/-- All external calls succeed. -/
def orcAll : Oracles :=
  ⟨true, true, true, fun _ => true, true, true, true, fun _ => true⟩

/-- All external calls succeed except packet writes, which always fail. -/
def orcBadWrite : Oracles :=
  ⟨true, true, true, fun _ => true, true, true, true, fun _ => false⟩

/-- A video stream with a one-second time base. -/
def vidStream : AVStream := ⟨MediaKind.video, 1, 10⟩

/-- A second, distinct video stream. -/
def vidStream2 : AVStream := ⟨MediaKind.video, 1, 11⟩

/-- An audio stream with a one-second time base. -/
def audStream : AVStream := ⟨MediaKind.audio, 1, 20⟩

/-- Streams `[video, audio]`; the two audio packets have individually consistent
timestamps (pts ≥ dts), but their pts and dts origins differ by 10. -/
def inpAudioLag : InputContainer :=
  ⟨[vidStream, audStream],
   [⟨1, 10, 0, 1, true, 7⟩, ⟨1, 12, 12, 1, false, 8⟩]⟩

/-- Streams `[video, audio]`; the first audio packet carries no pts. -/
def inpNoPts : InputContainer :=
  ⟨[vidStream, audStream],
   [⟨1, NOPTS, 5, 1, false, 7⟩, ⟨1, 7, 6, 1, false, 8⟩]⟩

/-- Streams `[video, audio]`; a non-keyframe video packet precedes the keyframe,
then another video packet and an audio packet follow. -/
def inpGate : InputContainer :=
  ⟨[vidStream, audStream],
   [⟨0, 1, 0, 1, false, 1⟩, ⟨0, 2, 1, 1, true, 2⟩,
    ⟨0, 3, 2, 1, false, 3⟩, ⟨1, 2, 2, 1, false, 4⟩]⟩

/-- A container with a single audio stream and no video stream. -/
def inpAudioOnly : InputContainer := ⟨[audStream], []⟩

/-- A stream table with two video streams around an audio stream. -/
def threeStreams : List AVStream := [vidStream, audStream, vidStream2]

/-- The defined decode timestamps carried by the primary-video-stream packets
of a packet list, in order. -/
def videoDts (vidx : Int) (l : List Packet) : List Int :=
  (l.filter fun p => decide ((p.stream_index : Int) = vidx) &&
    decide (p.dts ≠ NOPTS)).map Packet.dts

/-- A list whose head is not a digit (or which is empty): it contributes
nothing to a digit scan. -/
def noDigitHead : List Char → Prop
  | [] => True
  | c :: _ => c.isDigit = false

/-- Expected outcome of the all-oracles-succeed run on `inpGate`. -/
def resGate : TrimResult :=
  ⟨TrimOutcome.ok,
   [⟨0, 0, 0, 1, true, -1⟩, ⟨0, 1, 1, 1, false, -1⟩, ⟨1, 0, 0, 1, false, -1⟩],
   [⟨1, 10⟩, ⟨1, 20⟩],
   [TrimAction.openInput, TrimAction.allocOutput, TrimAction.openOutputFile,
    TrimAction.writeHeader, TrimAction.seek 0 0, TrimAction.writeTrailer,
    TrimAction.cleanup],
   some ExitKind.endOfInput⟩

/-- Expected outcome of the failing-writer run on `inpGate`. -/
def resGateBadWrite : TrimResult :=
  ⟨TrimOutcome.ok, [], [⟨1, 10⟩, ⟨1, 20⟩],
   [TrimAction.openInput, TrimAction.allocOutput, TrimAction.openOutputFile,
    TrimAction.writeHeader, TrimAction.seek 0 0, TrimAction.writeTrailer,
    TrimAction.cleanup],
   some ExitKind.writeError⟩

/-- Relay state at entry of the loop for a two-stream container. -/
def initTwoStreams : RelayState :=
  ⟨[⟨NOPTS, NOPTS, some 1⟩, ⟨NOPTS, NOPTS, some 1⟩], false, NOPTS⟩

/-! ### Lemmas -/

theorem digitChar_isDigit {n : Nat} (h : n < 10) : (digitChar n).isDigit = true := by
  interval_cases n <;> decide

theorem digitChar_val {n : Nat} (h : n < 10) :
    (digitChar n).toNat - '0'.toNat = n := by
  interval_cases n <;> decide

theorem isDigit_not_space {c : Char} (h : c.isDigit = true) :
    isSpaceChar c = false := by
  unfold isSpaceChar
  rw [decide_eq_false_iff_not]
  rintro (rfl | rfl | rfl | rfl | rfl | rfl) <;> exact absurd h (by decide)

theorem isDigit_ne_minus {c : Char} (h : c.isDigit = true) : c ≠ '-' := by
  rintro rfl; exact absurd h (by decide)

theorem isDigit_ne_plus {c : Char} (h : c.isDigit = true) : c ≠ '+' := by
  rintro rfl; exact absurd h (by decide)

theorem natDigits_ne_nil (n : Nat) : natDigits n ≠ [] := by
  rw [natDigits]
  split
  · simp
  · simp

theorem natDigits_digits (n : Nat) : ∀ c ∈ natDigits n, c.isDigit = true := by
  induction n using Nat.strong_induction_on with
  | _ n ih =>
    rw [natDigits]
    split
    · rename_i h
      intro c hc
      simp only [List.mem_singleton] at hc
      subst hc
      exact digitChar_isDigit h
    · rename_i h
      intro c hc
      rcases List.mem_append.mp hc with h1 | h2
      · exact ih (n / 10) (Nat.div_lt_self (by omega) (by omega)) c h1
      · simp only [List.mem_singleton] at h2
        subst h2
        exact digitChar_isDigit (Nat.mod_lt _ (by omega))

theorem digitsVal_append (xs : List Char) (c : Char) : ∀ a,
    digitsVal a (xs ++ [c]) = (digitsVal a xs) * 10 + (c.toNat - '0'.toNat) := by
  induction xs with
  | nil => intro a; rfl
  | cons x xs ih =>
    intro a
    rw [List.cons_append]
    rw [show digitsVal a (x :: (xs ++ [c])) =
          digitsVal (a * 10 + (x.toNat - '0'.toNat)) (xs ++ [c]) from rfl]
    rw [ih]
    rfl

theorem digitsVal_natDigits (n : Nat) : ∀ a,
    digitsVal a (natDigits n) = a * 10 ^ (natDigits n).length + n := by
  induction n using Nat.strong_induction_on with
  | _ n ih =>
    intro a
    rw [natDigits]
    split
    · rename_i h
      rw [show digitsVal a [digitChar n] = a * 10 + ((digitChar n).toNat - '0'.toNat) from rfl]
      rw [digitChar_val h]
      simp
    · rename_i h
      rw [digitsVal_append, ih (n / 10) (Nat.div_lt_self (by omega) (by omega)) a,
          digitChar_val (Nat.mod_lt _ (by omega)), List.length_append,
          List.length_singleton, pow_succ]
      ring_nf
      omega

theorem takeWhile_append_all (p : Char → Bool) :
    ∀ (ds rest : List Char), (∀ c ∈ ds, p c = true) →
      (ds ++ rest).takeWhile p = ds ++ rest.takeWhile p := by
  intro ds
  induction ds with
  | nil => intro rest _; rfl
  | cons d ds ih =>
    intro rest h
    rw [List.cons_append, List.takeWhile_cons]
    rw [h d (by simp)]
    simp only [if_true, List.cons_append]
    rw [ih rest (fun c hc => h c (by simp [hc]))]

theorem dropWhile_append_all (p : Char → Bool) :
    ∀ (ds rest : List Char), (∀ c ∈ ds, p c = true) →
      (ds ++ rest).dropWhile p = rest.dropWhile p := by
  intro ds
  induction ds with
  | nil => intro rest _; rfl
  | cons d ds ih =>
    intro rest h
    rw [List.cons_append, List.dropWhile_cons]
    rw [h d (by simp)]
    simp only [if_true]
    exact ih rest (fun c hc => h c (by simp [hc]))

theorem takeWhile_noDigitHead {rest : List Char} (h : noDigitHead rest) :
    rest.takeWhile Char.isDigit = [] := by
  cases rest with
  | nil => rfl
  | cons c tl =>
    simp only [noDigitHead] at h
    rw [List.takeWhile_cons, h]
    rfl

theorem dropWhile_noDigitHead {rest : List Char} (h : noDigitHead rest) :
    rest.dropWhile Char.isDigit = rest := by
  cases rest with
  | nil => rfl
  | cons c tl =>
    simp only [noDigitHead] at h
    rw [List.dropWhile_cons, h]
    rfl

theorem scanDigits_append (ds rest : List Char) (hds : ∀ c ∈ ds, c.isDigit = true)
    (hne : ds ≠ []) (hrest : noDigitHead rest) :
    scanDigits (ds ++ rest) = some (digitsVal 0 ds, rest) := by
  unfold scanDigits
  rw [takeWhile_append_all _ _ _ hds, takeWhile_noDigitHead hrest,
      dropWhile_append_all _ _ _ hds, dropWhile_noDigitHead hrest,
      List.append_nil]
  simp [hne]

theorem fmt02_digits (n : Nat) : ∀ c ∈ fmt02 n, c.isDigit = true := by
  unfold fmt02
  split
  · intro c hc
    rcases List.mem_cons.mp hc with rfl | h2
    · decide
    · exact natDigits_digits n c h2
  · exact natDigits_digits n

theorem fmt02_ne_nil (n : Nat) : fmt02 n ≠ [] := by
  unfold fmt02
  split
  · simp
  · exact natDigits_ne_nil n

theorem fmt02_val (n : Nat) : digitsVal 0 (fmt02 n) = n := by
  unfold fmt02
  split
  · rw [show digitsVal 0 ('0' :: natDigits n) = digitsVal 0 (natDigits n) from rfl]
    rw [digitsVal_natDigits n 0]
    simp
  · rw [digitsVal_natDigits n 0]
    simp

theorem skipWs_cons_of_not_space {c : Char} (h : isSpaceChar c = false)
    (cs : List Char) : skipWs (c :: cs) = c :: cs := by
  unfold skipWs
  rw [h]
  rfl

theorem scanIntField_fmt02 (n : Nat) (rest : List Char) (hrest : noDigitHead rest) :
    scanIntField (fmt02 n ++ rest) = some ((n : Int), rest) := by
  obtain ⟨c, tl, hcons⟩ : ∃ c tl, fmt02 n = c :: tl := by
    cases h : fmt02 n with
    | nil => exact absurd h (fmt02_ne_nil n)
    | cons c tl => exact ⟨c, tl, rfl⟩
  have hdig : c.isDigit = true := fmt02_digits n c (by rw [hcons]; simp)
  unfold scanIntField
  rw [hcons, List.cons_append, skipWs_cons_of_not_space (isDigit_not_space hdig)]
  dsimp only
  rw [if_neg (isDigit_ne_minus hdig), if_neg (isDigit_ne_plus hdig)]
  rw [← List.cons_append, ← hcons]
  rw [scanDigits_append _ _ (fmt02_digits n) (fmt02_ne_nil n) hrest]
  simp [fmt02_val]

theorem parse_time_fmtTime (m s : Nat) :
    parse_time (fmtTime m s) = some ((m : Int) * 60 + (s : Int)) := by
  have h1 : scanIntField ((fmtTime m s).data) = some ((m : Int), ':' :: fmt02 s) := by
    rw [show (fmtTime m s).data = fmt02 m ++ ':' :: fmt02 s from rfl]
    exact scanIntField_fmt02 m _ (by simp [noDigitHead])
  have h2 : scanIntField (fmt02 s) = some ((s : Int), []) := by
    have h := scanIntField_fmt02 s [] (by simp [noDigitHead])
    rwa [List.append_nil] at h
  unfold parse_time
  rw [h1]
  dsimp only
  rw [if_pos rfl, h2]

theorem videoIdxScan_no_video : ∀ (ss : List AVStream) (i : Nat) (v : Int),
    (∀ s ∈ ss, s.kind ≠ MediaKind.video) → videoIdxScan ss i v = v := by
  intro ss
  induction ss with
  | nil => intro i v _; rfl
  | cons s rest ih =>
    intro i v h
    unfold videoIdxScan
    rw [if_neg (h s (by simp))]
    exact ih (i + 1) v (fun t ht => h t (by simp [ht]))

theorem videoIdxScan_last : ∀ (ss : List AVStream) (b : Nat) (v : Int) (i : Nat)
    (hi : i < ss.length),
    (ss.get ⟨i, hi⟩).kind = MediaKind.video →
    (∀ j (hj : j < ss.length), i < j → (ss.get ⟨j, hj⟩).kind ≠ MediaKind.video) →
    videoIdxScan ss b v = ((b + i : Nat) : Int) := by
  intro ss
  induction ss with
  | nil => intro b v i hi; exact absurd hi (by simp)
  | cons s rest ih =>
    intro b v i hi hvid hlast
    cases i with
    | zero =>
      have hs : s.kind = MediaKind.video := hvid
      unfold videoIdxScan
      rw [if_pos hs]
      rw [videoIdxScan_no_video rest (b + 1) b ?_]
      · simp
      · intro t ht
        obtain ⟨⟨j, hj⟩, rfl⟩ := List.mem_iff_get.mp ht
        have h2 := Nat.succ_lt_succ hj
        have := hlast (j + 1) (by simpa using h2) (Nat.succ_pos j)
        simpa using this
    | succ i =>
      unfold videoIdxScan
      have h1 : videoIdxScan rest (b + 1) (if s.kind = MediaKind.video then (b : Int) else v) =
          (((b + 1) + i : Nat) : Int) := by
        apply ih (b + 1) _ i (by simpa using Nat.lt_of_succ_lt_succ hi)
        · simpa using hvid
        · intro j hj hij
          have := hlast (j + 1) (by simpa using Nat.succ_lt_succ hj) (Nat.succ_lt_succ hij)
          simpa using this
      rw [h1]
      congr 1
      omega

theorem setupStreams_ctx_unset (newOk : Nat → Bool) :
    ∀ (ss : List AVStream) (i : Nat) (cs : List StreamContext) (os : List OutStream),
      setupStreams newOk ss i = some (cs, os) →
      ∀ c ∈ cs, c.start_pts = NOPTS ∧ c.start_dts = NOPTS := by
  intro ss
  induction ss with
  | nil =>
    intro i cs os h c hc
    unfold setupStreams at h
    simp only [Option.some.injEq, Prod.mk.injEq] at h
    rw [← h.1] at hc
    simp at hc
  | cons s rest ih =>
    intro i cs os h c hc
    unfold setupStreams at h
    split at h
    · split at h
      · cases hrec : setupStreams newOk rest (i + 1) with
        | none => rw [hrec] at h; simp at h
        | some p =>
          rw [hrec] at h
          simp only [Option.map_some', Option.some.injEq, Prod.mk.injEq] at h
          rw [← h.1] at hc
          rcases List.mem_cons.mp hc with rfl | h2
          · exact ⟨rfl, rfl⟩
          · exact ih (i + 1) p.1 p.2 (by rw [hrec]) c h2
      · simp at h
    · cases hrec : setupStreams newOk rest (i + 1) with
      | none => rw [hrec] at h; simp at h
      | some p =>
        rw [hrec] at h
        simp only [Option.map_some', Option.some.injEq, Prod.mk.injEq] at h
        rw [← h.1] at hc
        rcases List.mem_cons.mp hc with rfl | h2
        · exact ⟨rfl, rfl⟩
        · exact ih (i + 1) p.1 p.2 (by rw [hrec]) c h2

theorem setupStreams_outS (newOk : Nat → Bool) :
    ∀ (ss : List AVStream) (i : Nat) (cs : List StreamContext) (os : List OutStream),
      setupStreams newOk ss i = some (cs, os) →
      os = (ss.filter isCopied).map (fun s => (⟨s.time_base, s.codecpar⟩ : OutStream)) := by
  intro ss
  induction ss with
  | nil =>
    intro i cs os h
    unfold setupStreams at h
    simp only [Option.some.injEq, Prod.mk.injEq] at h
    rw [← h.2]
    rfl
  | cons s rest ih =>
    intro i cs os h
    unfold setupStreams at h
    split at h
    · rename_i hcop
      split at h
      · cases hrec : setupStreams newOk rest (i + 1) with
        | none => rw [hrec] at h; simp at h
        | some p =>
          rw [hrec] at h
          simp only [Option.map_some', Option.some.injEq, Prod.mk.injEq] at h
          rw [← h.2]
          rw [List.filter_cons_of_pos (by simpa [isCopied] using hcop)]
          rw [List.map_cons]
          rw [ih (i + 1) p.1 p.2 (by rw [hrec])]
      · simp at h
    · rename_i hcop
      cases hrec : setupStreams newOk rest (i + 1) with
      | none => rw [hrec] at h; simp at h
      | some p =>
        rw [hrec] at h
        simp only [Option.map_some', Option.some.injEq, Prod.mk.injEq] at h
        rw [← h.2]
        rw [List.filter_cons_of_neg (by simpa [isCopied] using hcop)]
        exact ih (i + 1) p.1 p.2 (by rw [hrec])

theorem relayLoop_nil (streams vidx outS start_sec end_sec writeOk nw st) :
    relayLoop streams vidx outS start_sec end_sec writeOk nw [] st =
      ([], st, ExitKind.endOfInput) := rfl

theorem relayLoop_cons_skip_kind (streams vidx outS start_sec end_sec writeOk nw pkt rest st)
    (h : ¬((streams.getD pkt.stream_index dfltStream).kind = MediaKind.audio ∨
           (streams.getD pkt.stream_index dfltStream).kind = MediaKind.video)) :
    relayLoop streams vidx outS start_sec end_sec writeOk nw (pkt :: rest) st =
      relayLoop streams vidx outS start_sec end_sec writeOk nw rest st := by
  conv_lhs => unfold relayLoop
  rw [if_pos h]

theorem relayLoop_cons_break (streams vidx outS start_sec end_sec writeOk nw pkt rest st)
    (h : (streams.getD pkt.stream_index dfltStream).kind = MediaKind.audio ∨
         (streams.getD pkt.stream_index dfltStream).kind = MediaKind.video)
    (h2 : end_sec * ((streams.getD pkt.stream_index dfltStream).time_base.den : Int) ≤
          (if pkt.pts = NOPTS then pkt.dts else pkt.pts) *
            (streams.getD pkt.stream_index dfltStream).time_base.num) :
    relayLoop streams vidx outS start_sec end_sec writeOk nw (pkt :: rest) st =
      ([], st, ExitKind.endOfWindow) := by
  conv_lhs => unfold relayLoop
  rw [if_neg (not_not_intro h), if_pos h2]

theorem relayLoop_cons_skip_before (streams vidx outS start_sec end_sec writeOk nw pkt rest st)
    (h : (streams.getD pkt.stream_index dfltStream).kind = MediaKind.audio ∨
         (streams.getD pkt.stream_index dfltStream).kind = MediaKind.video)
    (h2 : ¬(end_sec * ((streams.getD pkt.stream_index dfltStream).time_base.den : Int) ≤
            (if pkt.pts = NOPTS then pkt.dts else pkt.pts) *
              (streams.getD pkt.stream_index dfltStream).time_base.num))
    (h3 : (if pkt.pts = NOPTS then pkt.dts else pkt.pts) *
            (streams.getD pkt.stream_index dfltStream).time_base.num <
          start_sec * ((streams.getD pkt.stream_index dfltStream).time_base.den : Int)) :
    relayLoop streams vidx outS start_sec end_sec writeOk nw (pkt :: rest) st =
      relayLoop streams vidx outS start_sec end_sec writeOk nw rest st := by
  conv_lhs => unfold relayLoop
  rw [if_neg (not_not_intro h), if_neg h2, if_pos h3]

theorem relayLoop_cons_skip_gate (streams vidx outS start_sec end_sec writeOk nw pkt rest st)
    (h : (streams.getD pkt.stream_index dfltStream).kind = MediaKind.audio ∨
         (streams.getD pkt.stream_index dfltStream).kind = MediaKind.video)
    (h2 : ¬(end_sec * ((streams.getD pkt.stream_index dfltStream).time_base.den : Int) ≤
            (if pkt.pts = NOPTS then pkt.dts else pkt.pts) *
              (streams.getD pkt.stream_index dfltStream).time_base.num))
    (h3 : ¬((if pkt.pts = NOPTS then pkt.dts else pkt.pts) *
              (streams.getD pkt.stream_index dfltStream).time_base.num <
            start_sec * ((streams.getD pkt.stream_index dfltStream).time_base.den : Int)))
    (h4 : (pkt.stream_index : Int) = vidx ∧ st.got_video_keyframe = false ∧
          pkt.flags_key = false) :
    relayLoop streams vidx outS start_sec end_sec writeOk nw (pkt :: rest) st =
      relayLoop streams vidx outS start_sec end_sec writeOk nw rest st := by
  conv_lhs => unfold relayLoop
  rw [if_neg (not_not_intro h), if_neg h2, if_neg h3, if_pos h4]

theorem relayLoop_cons_accept (streams vidx outS start_sec end_sec writeOk nw pkt rest st)
    (h : (streams.getD pkt.stream_index dfltStream).kind = MediaKind.audio ∨
         (streams.getD pkt.stream_index dfltStream).kind = MediaKind.video)
    (h2 : ¬(end_sec * ((streams.getD pkt.stream_index dfltStream).time_base.den : Int) ≤
            (if pkt.pts = NOPTS then pkt.dts else pkt.pts) *
              (streams.getD pkt.stream_index dfltStream).time_base.num))
    (h3 : ¬((if pkt.pts = NOPTS then pkt.dts else pkt.pts) *
              (streams.getD pkt.stream_index dfltStream).time_base.num <
            start_sec * ((streams.getD pkt.stream_index dfltStream).time_base.den : Int)))
    (h4 : ¬((pkt.stream_index : Int) = vidx ∧ st.got_video_keyframe = false ∧
            pkt.flags_key = false)) :
    relayLoop streams vidx outS start_sec end_sec writeOk nw (pkt :: rest) st =
      (let ps := processAccepted streams vidx outS pkt
        ⟨st.ctx, st.got_video_keyframe || decide ((pkt.stream_index : Int) = vidx),
         st.last_video_dts⟩
       if writeOk nw then
         let r := relayLoop streams vidx outS start_sec end_sec writeOk (nw + 1) rest ps.2
         (ps.1 :: r.1, r.2)
       else ([], ps.2, ExitKind.writeError)) := by
  conv_lhs => unfold relayLoop
  rw [if_neg (not_not_intro h), if_neg h2, if_neg h3, if_neg h4]

theorem processAccepted_stream_index (streams vidx outS pkt st) :
    (processAccepted streams vidx outS pkt st).1.stream_index = pkt.stream_index := rfl

theorem processAccepted_flags (streams vidx outS pkt st) :
    (processAccepted streams vidx outS pkt st).1.flags_key = pkt.flags_key := rfl

theorem processAccepted_got (streams vidx outS pkt st) :
    (processAccepted streams vidx outS pkt st).2.got_video_keyframe =
      st.got_video_keyframe := rfl

theorem processAccepted_ctx (streams vidx outS pkt st) :
    (processAccepted streams vidx outS pkt st).2.ctx =
      st.ctx.set pkt.stream_index
        ⟨if (st.ctx.getD pkt.stream_index dfltCtx).start_pts = NOPTS then pkt.pts
          else (st.ctx.getD pkt.stream_index dfltCtx).start_pts,
         if (st.ctx.getD pkt.stream_index dfltCtx).start_pts = NOPTS then pkt.dts
          else (st.ctx.getD pkt.stream_index dfltCtx).start_dts,
         (st.ctx.getD pkt.stream_index dfltCtx).time_base⟩ := rfl

theorem processAccepted_video_pts_ge_dts (streams vidx outS pkt st)
    (hv : ((processAccepted streams vidx outS pkt st).1.stream_index : Int) = vidx)
    (hp : (processAccepted streams vidx outS pkt st).1.pts ≠ NOPTS)
    (hd : (processAccepted streams vidx outS pkt st).1.dts ≠ NOPTS) :
    (processAccepted streams vidx outS pkt st).1.dts ≤
      (processAccepted streams vidx outS pkt st).1.pts := by
  rw [processAccepted_stream_index] at hv
  unfold processAccepted at hp hd ⊢
  dsimp only at hp hd ⊢
  split_ifs at hp hd ⊢ <;> omega

theorem processAccepted_last_nonvideo (streams vidx outS pkt st)
    (hv : (pkt.stream_index : Int) ≠ vidx) :
    (processAccepted streams vidx outS pkt st).2.last_video_dts =
      st.last_video_dts := by
  unfold processAccepted
  dsimp only
  split_ifs <;> rfl

theorem getD_set_ne {α : Type} (l : List α) (i j : Nat) (a d : α) (h : i ≠ j) :
    (l.set i a).getD j d = l.getD j d := by
  rw [List.getD_eq_getElem?_getD, List.getElem?_set_ne h, ← List.getD_eq_getElem?_getD]

theorem getD_set_keep {α : Type} (l : List α) (i : Nat) (d : α) :
    (l.set i (l.getD i d)).getD i d = l.getD i d := by
  by_cases h : i < l.length
  · rw [List.getD_eq_getElem?_getD, List.getElem?_set_self h, Option.getD_some,
        List.getD_eq_getElem?_getD, List.getElem?_eq_getElem h, Option.getD_some]
  · rw [List.set_eq_of_length_le (Nat.le_of_not_lt h)]

theorem getD_set_main {α : Type} (l : List α) (i : Nat) (a d : α) (h : i < l.length) :
    (l.set i a).getD i d = a := by
  rw [List.getD_eq_getElem?_getD, List.getElem?_set_self h, Option.getD_some]

/-- Every packet in the relay output was produced by `processAccepted` from a
packet whose stream passed the audio/video kind filter. -/
theorem relay_emitted_shape (streams : List AVStream) (vidx : Int)
    (outS : List OutStream) (start_sec end_sec : Int) (writeOk : Nat → Bool) :
    ∀ (pkts : List Packet) (nw : Nat) (st : RelayState),
      ∀ p ∈ (relayLoop streams vidx outS start_sec end_sec writeOk nw pkts st).1,
        ∃ pkt st1, p = (processAccepted streams vidx outS pkt st1).1 ∧
          ((streams.getD pkt.stream_index dfltStream).kind = MediaKind.audio ∨
           (streams.getD pkt.stream_index dfltStream).kind = MediaKind.video) := by
  intro pkts
  induction pkts with
  | nil => intro nw st p hp; rw [relayLoop_nil] at hp; exact absurd hp (by simp)
  | cons pkt rest ih =>
    intro nw st p hp
    by_cases hk : (streams.getD pkt.stream_index dfltStream).kind = MediaKind.audio ∨
        (streams.getD pkt.stream_index dfltStream).kind = MediaKind.video
    · by_cases h2 : end_sec * ((streams.getD pkt.stream_index dfltStream).time_base.den : Int) ≤
          (if pkt.pts = NOPTS then pkt.dts else pkt.pts) *
            (streams.getD pkt.stream_index dfltStream).time_base.num
      · rw [relayLoop_cons_break _ _ _ _ _ _ _ _ _ _ hk h2] at hp
        exact absurd hp (by simp)
      · by_cases h3 : (if pkt.pts = NOPTS then pkt.dts else pkt.pts) *
            (streams.getD pkt.stream_index dfltStream).time_base.num <
            start_sec * ((streams.getD pkt.stream_index dfltStream).time_base.den : Int)
        · rw [relayLoop_cons_skip_before _ _ _ _ _ _ _ _ _ _ hk h2 h3] at hp
          exact ih nw st p hp
        · by_cases h4 : (pkt.stream_index : Int) = vidx ∧
              st.got_video_keyframe = false ∧ pkt.flags_key = false
          · rw [relayLoop_cons_skip_gate _ _ _ _ _ _ _ _ _ _ hk h2 h3 h4] at hp
            exact ih nw st p hp
          · rw [relayLoop_cons_accept _ _ _ _ _ _ _ _ _ _ hk h2 h3 h4] at hp
            dsimp only at hp
            by_cases hw : writeOk nw = true
            · rw [if_pos hw] at hp
              rcases List.mem_cons.mp hp with rfl | hmem
              · exact ⟨pkt, _, rfl, hk⟩
              · exact ih (nw + 1) _ p hmem
            · rw [if_neg hw] at hp
              exact absurd hp (by simp)
    · rw [relayLoop_cons_skip_kind _ _ _ _ _ _ _ _ _ _ hk] at hp
      exact ih nw st p hp

/-- If the keyframe gate is still closed, the first primary-video packet in
the relay output is a keyframe. -/
theorem relay_first_video_key (streams : List AVStream) (vidx : Int)
    (outS : List OutStream) (start_sec end_sec : Int) (writeOk : Nat → Bool) :
    ∀ (pkts : List Packet) (nw : Nat) (st : RelayState),
      st.got_video_keyframe = false →
      ∀ p, ((relayLoop streams vidx outS start_sec end_sec writeOk nw pkts st).1.find?
          (fun q => decide ((q.stream_index : Int) = vidx))) = some p →
        p.flags_key = true := by
  intro pkts
  induction pkts with
  | nil => intro nw st _ p hp; rw [relayLoop_nil] at hp; exact absurd hp (by simp)
  | cons pkt rest ih =>
    intro nw st hgot p hp
    by_cases hk : (streams.getD pkt.stream_index dfltStream).kind = MediaKind.audio ∨
        (streams.getD pkt.stream_index dfltStream).kind = MediaKind.video
    · by_cases h2 : end_sec * ((streams.getD pkt.stream_index dfltStream).time_base.den : Int) ≤
          (if pkt.pts = NOPTS then pkt.dts else pkt.pts) *
            (streams.getD pkt.stream_index dfltStream).time_base.num
      · rw [relayLoop_cons_break _ _ _ _ _ _ _ _ _ _ hk h2] at hp
        exact absurd hp (by simp)
      · by_cases h3 : (if pkt.pts = NOPTS then pkt.dts else pkt.pts) *
            (streams.getD pkt.stream_index dfltStream).time_base.num <
            start_sec * ((streams.getD pkt.stream_index dfltStream).time_base.den : Int)
        · rw [relayLoop_cons_skip_before _ _ _ _ _ _ _ _ _ _ hk h2 h3] at hp
          exact ih nw st hgot p hp
        · by_cases h4 : (pkt.stream_index : Int) = vidx ∧
              st.got_video_keyframe = false ∧ pkt.flags_key = false
          · rw [relayLoop_cons_skip_gate _ _ _ _ _ _ _ _ _ _ hk h2 h3 h4] at hp
            exact ih nw st hgot p hp
          · rw [relayLoop_cons_accept _ _ _ _ _ _ _ _ _ _ hk h2 h3 h4] at hp
            dsimp only at hp
            by_cases hvid : (pkt.stream_index : Int) = vidx
            · -- the accepted packet is on the primary stream: gate forces a keyframe
              have hkey : pkt.flags_key = true := by
                by_contra hnk
                exact h4 ⟨hvid, hgot, Bool.not_eq_true _ ▸ (by simpa using hnk)⟩
              by_cases hw : writeOk nw = true
              · rw [if_pos hw] at hp
                rw [List.find?_cons_of_pos _ (by
                    rw [processAccepted_stream_index]
                    simpa using hvid)] at hp
                have hpe := Option.some.inj hp
                rw [← hpe, processAccepted_flags]
                exact hkey
              · rw [if_neg hw] at hp
                exact absurd hp (by simp)
            · by_cases hw : writeOk nw = true
              · rw [if_pos hw] at hp
                rw [List.find?_cons_of_neg _ (by
                    rw [processAccepted_stream_index]
                    simpa using hvid)] at hp
                refine ih (nw + 1) _ ?_ p hp
                rw [processAccepted_got]
                simp [hgot, hvid]
              · rw [if_neg hw] at hp
                exact absurd hp (by simp)
    · rw [relayLoop_cons_skip_kind _ _ _ _ _ _ _ _ _ _ hk] at hp
      exact ih nw st hgot p hp

/-- Lines 213-216 processing an accepted packet whose stream origin is still
unset: the packet's own pts/dts become the origin, so its emitted pts and dts
are both zero (provided both were defined and, on the primary video stream,
no video packet was emitted before). -/
theorem processAccepted_first_zero (streams vidx outS pkt st)
    (hctx : (st.ctx.getD pkt.stream_index dfltCtx).start_pts = NOPTS)
    (hpts : pkt.pts ≠ NOPTS) (hdts : pkt.dts ≠ NOPTS)
    (hlast : (pkt.stream_index : Int) = vidx → st.last_video_dts = NOPTS) :
    (processAccepted streams vidx outS pkt st).1.pts = 0 ∧
    (processAccepted streams vidx outS pkt st).1.dts = 0 := by
  unfold processAccepted
  dsimp only
  split_ifs <;> omega

theorem relay_ctx_stable (streams : List AVStream) (vidx : Int)
    (outS : List OutStream) (start_sec end_sec : Int) (writeOk : Nat → Bool) :
    ∀ (pkts : List Packet) (nw : Nat) (st : RelayState) (sIdx : Nat),
      (st.ctx.getD sIdx dfltCtx).start_pts ≠ NOPTS →
      ((relayLoop streams vidx outS start_sec end_sec writeOk nw pkts st).2.1.ctx.getD
          sIdx dfltCtx) = st.ctx.getD sIdx dfltCtx := by
  intro pkts
  induction pkts with
  | nil => intro nw st sIdx _; rw [relayLoop_nil]
  | cons pkt rest ih =>
    intro nw st sIdx hset
    have hctx2 : ((processAccepted streams vidx outS pkt
        ⟨st.ctx, st.got_video_keyframe || decide ((pkt.stream_index : Int) = vidx),
         st.last_video_dts⟩).2.ctx.getD sIdx dfltCtx) = st.ctx.getD sIdx dfltCtx := by
      rw [processAccepted_ctx]
      dsimp only
      by_cases hj : pkt.stream_index = sIdx
      · subst hj
        rw [if_neg hset, if_neg hset]
        exact getD_set_keep _ _ _
      · exact getD_set_ne _ _ _ _ _ hj
    by_cases hk : (streams.getD pkt.stream_index dfltStream).kind = MediaKind.audio ∨
        (streams.getD pkt.stream_index dfltStream).kind = MediaKind.video
    · by_cases h2 : end_sec * ((streams.getD pkt.stream_index dfltStream).time_base.den : Int) ≤
          (if pkt.pts = NOPTS then pkt.dts else pkt.pts) *
            (streams.getD pkt.stream_index dfltStream).time_base.num
      · rw [relayLoop_cons_break _ _ _ _ _ _ _ _ _ _ hk h2]
      · by_cases h3 : (if pkt.pts = NOPTS then pkt.dts else pkt.pts) *
            (streams.getD pkt.stream_index dfltStream).time_base.num <
            start_sec * ((streams.getD pkt.stream_index dfltStream).time_base.den : Int)
        · rw [relayLoop_cons_skip_before _ _ _ _ _ _ _ _ _ _ hk h2 h3]
          exact ih nw st sIdx hset
        · by_cases h4 : (pkt.stream_index : Int) = vidx ∧
              st.got_video_keyframe = false ∧ pkt.flags_key = false
          · rw [relayLoop_cons_skip_gate _ _ _ _ _ _ _ _ _ _ hk h2 h3 h4]
            exact ih nw st sIdx hset
          · rw [relayLoop_cons_accept _ _ _ _ _ _ _ _ _ _ hk h2 h3 h4]
            dsimp only
            by_cases hw : writeOk nw = true
            · rw [if_pos hw]
              dsimp only
              rw [ih (nw + 1) _ sIdx (by rw [hctx2]; exact hset)]
              exact hctx2
            · rw [if_neg hw]
              exact hctx2
    · rw [relayLoop_cons_skip_kind _ _ _ _ _ _ _ _ _ _ hk]
      exact ih nw st sIdx hset

theorem relay_first_emitted_zero (streams : List AVStream) (vidx : Int)
    (outS : List OutStream) (start_sec end_sec : Int) (writeOk : Nat → Bool) :
    ∀ (pkts : List Packet) (nw : Nat) (st : RelayState) (sIdx : Nat),
      (st.ctx.getD sIdx dfltCtx).start_pts = NOPTS →
      ((sIdx : Int) = vidx → st.last_video_dts = NOPTS) →
      (∀ p ∈ pkts, p.stream_index = sIdx → p.pts ≠ NOPTS ∧ p.dts ≠ NOPTS) →
      ∀ p, ((relayLoop streams vidx outS start_sec end_sec writeOk nw pkts st).1.find?
          (fun q => q.stream_index == sIdx)) = some p →
        p.pts = 0 ∧ p.dts = 0 := by
  intro pkts
  induction pkts with
  | nil => intro nw st sIdx _ _ _ p hp; rw [relayLoop_nil] at hp; exact absurd hp (by simp)
  | cons pkt rest ih =>
    intro nw st sIdx hctx hlast hdef p hp
    have hdef' : ∀ q ∈ rest, q.stream_index = sIdx → q.pts ≠ NOPTS ∧ q.dts ≠ NOPTS :=
      fun q hq => hdef q (by simp [hq])
    by_cases hk : (streams.getD pkt.stream_index dfltStream).kind = MediaKind.audio ∨
        (streams.getD pkt.stream_index dfltStream).kind = MediaKind.video
    · by_cases h2 : end_sec * ((streams.getD pkt.stream_index dfltStream).time_base.den : Int) ≤
          (if pkt.pts = NOPTS then pkt.dts else pkt.pts) *
            (streams.getD pkt.stream_index dfltStream).time_base.num
      · rw [relayLoop_cons_break _ _ _ _ _ _ _ _ _ _ hk h2] at hp
        exact absurd hp (by simp)
      · by_cases h3 : (if pkt.pts = NOPTS then pkt.dts else pkt.pts) *
            (streams.getD pkt.stream_index dfltStream).time_base.num <
            start_sec * ((streams.getD pkt.stream_index dfltStream).time_base.den : Int)
        · rw [relayLoop_cons_skip_before _ _ _ _ _ _ _ _ _ _ hk h2 h3] at hp
          exact ih nw st sIdx hctx hlast hdef' p hp
        · by_cases h4 : (pkt.stream_index : Int) = vidx ∧
              st.got_video_keyframe = false ∧ pkt.flags_key = false
          · rw [relayLoop_cons_skip_gate _ _ _ _ _ _ _ _ _ _ hk h2 h3 h4] at hp
            exact ih nw st sIdx hctx hlast hdef' p hp
          · rw [relayLoop_cons_accept _ _ _ _ _ _ _ _ _ _ hk h2 h3 h4] at hp
            dsimp only at hp
            by_cases hw : writeOk nw = true
            · rw [if_pos hw] at hp
              by_cases hs : pkt.stream_index = sIdx
              · rw [List.find?_cons_of_pos _ (by
                    rw [processAccepted_stream_index]
                    simpa using hs)] at hp
                have hpe := Option.some.inj hp
                rw [← hpe]
                refine processAccepted_first_zero _ _ _ _ _ ?_ ?_ ?_ ?_
                · dsimp only
                  rw [hs]
                  exact hctx
                · exact (hdef pkt (by simp) hs).1
                · exact (hdef pkt (by simp) hs).2
                · intro hv
                  dsimp only
                  rw [hs] at hv
                  exact hlast hv
              · rw [List.find?_cons_of_neg _ (by
                    rw [processAccepted_stream_index]
                    simpa using hs)] at hp
                refine ih (nw + 1) _ sIdx ?_ ?_ hdef' p hp
                · rw [processAccepted_ctx]
                  dsimp only
                  rw [getD_set_ne _ _ _ _ _ hs]
                  exact hctx
                · intro hv
                  have hnv : (pkt.stream_index : Int) ≠ vidx := by
                    intro he
                    exact hs (by
                      have := he.trans hv.symm
                      exact_mod_cast this)
                  rw [processAccepted_last_nonvideo _ _ _ _ _ hnv]
                  exact hlast hv
            · rw [if_neg hw] at hp
              exact absurd hp (by simp)
    · rw [relayLoop_cons_skip_kind _ _ _ _ _ _ _ _ _ _ hk] at hp
      exact ih nw st sIdx hctx hlast hdef' p hp

/-- Lines 221-229 for an accepted primary-video packet with a defined dts:
the emitted dts is non-negative, becomes the new `last_video_dts`, and
strictly exceeds the previous one when that was defined. -/
theorem processAccepted_video_dts (streams vidx outS pkt st)
    (hv : (pkt.stream_index : Int) = vidx)
    (hdts : pkt.dts ≠ NOPTS)
    (hrange : NOPTS ≤ pkt.dts)
    (hA : st.last_video_dts = NOPTS →
      (st.ctx.getD pkt.stream_index dfltCtx).start_pts = NOPTS ∨
      (st.ctx.getD pkt.stream_index dfltCtx).start_dts = NOPTS)
    (hB : st.last_video_dts ≠ NOPTS → 0 ≤ st.last_video_dts) :
    0 ≤ (processAccepted streams vidx outS pkt st).1.dts ∧
    (processAccepted streams vidx outS pkt st).2.last_video_dts =
      (processAccepted streams vidx outS pkt st).1.dts ∧
    (st.last_video_dts ≠ NOPTS →
      st.last_video_dts < (processAccepted streams vidx outS pkt st).1.dts) := by
  unfold processAccepted
  dsimp only
  simp only [NOPTS] at *
  split_ifs <;> omega

/-- A packet with no dts leaves both its dts and `last_video_dts` unchanged. -/
theorem processAccepted_dts_nops (streams vidx outS pkt st)
    (hdts : pkt.dts = NOPTS) :
    (processAccepted streams vidx outS pkt st).1.dts = NOPTS ∧
    (processAccepted streams vidx outS pkt st).2.last_video_dts =
      st.last_video_dts := by
  unfold processAccepted
  dsimp only
  split_ifs <;> simp_all

theorem relay_video_dts_mono (streams : List AVStream) (vidx : Int)
    (outS : List OutStream) (start_sec end_sec : Int) (writeOk : Nat → Bool) :
    ∀ (pkts : List Packet) (nw : Nat) (st : RelayState),
      0 ≤ vidx →
      (∀ p ∈ pkts, NOPTS ≤ p.dts) →
      (st.last_video_dts = NOPTS →
        (st.ctx.getD vidx.toNat dfltCtx).start_pts = NOPTS ∨
        (st.ctx.getD vidx.toNat dfltCtx).start_dts = NOPTS) →
      (st.last_video_dts ≠ NOPTS → 0 ≤ st.last_video_dts) →
      (∀ x ∈ videoDts vidx
          (relayLoop streams vidx outS start_sec end_sec writeOk nw pkts st).1,
        st.last_video_dts ≠ NOPTS → st.last_video_dts < x) ∧
      List.Chain' (· < ·) (videoDts vidx
        (relayLoop streams vidx outS start_sec end_sec writeOk nw pkts st).1) := by
  intro pkts
  induction pkts with
  | nil =>
    intro nw st _ _ _ _
    rw [relayLoop_nil]
    exact ⟨by simp [videoDts], by simp [videoDts]⟩
  | cons pkt rest ih =>
    intro nw st hvx hrange hA hB
    have hrange' : ∀ p ∈ rest, NOPTS ≤ p.dts := fun p hp => hrange p (by simp [hp])
    by_cases hk : (streams.getD pkt.stream_index dfltStream).kind = MediaKind.audio ∨
        (streams.getD pkt.stream_index dfltStream).kind = MediaKind.video
    · by_cases h2 : end_sec * ((streams.getD pkt.stream_index dfltStream).time_base.den : Int) ≤
          (if pkt.pts = NOPTS then pkt.dts else pkt.pts) *
            (streams.getD pkt.stream_index dfltStream).time_base.num
      · rw [relayLoop_cons_break _ _ _ _ _ _ _ _ _ _ hk h2]
        exact ⟨by simp [videoDts], by simp [videoDts]⟩
      · by_cases h3 : (if pkt.pts = NOPTS then pkt.dts else pkt.pts) *
            (streams.getD pkt.stream_index dfltStream).time_base.num <
            start_sec * ((streams.getD pkt.stream_index dfltStream).time_base.den : Int)
        · rw [relayLoop_cons_skip_before _ _ _ _ _ _ _ _ _ _ hk h2 h3]
          exact ih nw st hvx hrange' hA hB
        · by_cases h4 : (pkt.stream_index : Int) = vidx ∧
              st.got_video_keyframe = false ∧ pkt.flags_key = false
          · rw [relayLoop_cons_skip_gate _ _ _ _ _ _ _ _ _ _ hk h2 h3 h4]
            exact ih nw st hvx hrange' hA hB
          · rw [relayLoop_cons_accept _ _ _ _ _ _ _ _ _ _ hk h2 h3 h4]
            dsimp only
            by_cases hw : writeOk nw = true
            swap
            · rw [if_neg hw]
              exact ⟨by simp [videoDts], by simp [videoDts]⟩
            rw [if_pos hw]
            dsimp only
            set st1 : RelayState :=
              ⟨st.ctx, st.got_video_keyframe || decide ((pkt.stream_index : Int) = vidx),
               st.last_video_dts⟩ with hst1
            by_cases hvid : (pkt.stream_index : Int) = vidx
            · by_cases hd : pkt.dts = NOPTS
              · -- video packet without dts: filtered out, state dts-parts unchanged
                obtain ⟨hd1, hd2⟩ := processAccepted_dts_nops streams vidx outS pkt st1 hd
                have hfilt : videoDts vidx
                    ((processAccepted streams vidx outS pkt st1).1 ::
                      (relayLoop streams vidx outS start_sec end_sec writeOk (nw + 1) rest
                        (processAccepted streams vidx outS pkt st1).2).1) =
                    videoDts vidx
                      (relayLoop streams vidx outS start_sec end_sec writeOk (nw + 1) rest
                        (processAccepted streams vidx outS pkt st1).2).1 := by
                  unfold videoDts
                  rw [List.filter_cons_of_neg (by simp [hd1])]
                have hih := ih (nw + 1) (processAccepted streams vidx outS pkt st1).2 hvx hrange'
                    ?_ ?_
                · rw [hfilt]
                  refine ⟨fun x hx hne => ?_, hih.2⟩
                  have hlt := hih.1 x hx (by rw [hd2]; exact hne)
                  rw [hd2] at hlt
                  exact hlt
                · -- invariant A for the new state
                  rw [hd2]
                  intro hlastN
                  have hAold := hA hlastN
                  rw [processAccepted_ctx]
                  dsimp only
                  have hidx : pkt.stream_index = vidx.toNat := by omega
                  rw [← hidx]
                  rw [← hidx] at hAold
                  by_cases hin : pkt.stream_index < st.ctx.length
                  · rw [getD_set_main _ _ _ _ hin]
                    by_cases hcap : (st.ctx.getD pkt.stream_index dfltCtx).start_pts = NOPTS
                    · right
                      dsimp only
                      rw [if_pos hcap]
                      exact hd
                    · rcases hAold with h | h
                      · exact absurd h hcap
                      · right
                        dsimp only
                        rw [if_neg hcap]
                        exact h
                  · left
                    rw [List.set_eq_of_length_le (Nat.le_of_not_lt hin)]
                    rw [List.getD_eq_getElem?_getD, List.getElem?_eq_none (by omega)]
                    rfl
                · rw [hd2]; exact hB
              · -- video packet with defined dts
                have hidx : pkt.stream_index = vidx.toNat := by omega
                obtain ⟨hge, hlast', hgt⟩ := processAccepted_video_dts streams vidx outS pkt st1
                    hvid hd (hrange pkt (by simp)) (by rw [hidx]; exact hA) hB
                have hfilt : videoDts vidx
                    ((processAccepted streams vidx outS pkt st1).1 ::
                      (relayLoop streams vidx outS start_sec end_sec writeOk (nw + 1) rest
                        (processAccepted streams vidx outS pkt st1).2).1) =
                    (processAccepted streams vidx outS pkt st1).1.dts ::
                    videoDts vidx
                      (relayLoop streams vidx outS start_sec end_sec writeOk (nw + 1) rest
                        (processAccepted streams vidx outS pkt st1).2).1 := by
                  unfold videoDts
                  rw [List.filter_cons_of_pos (by
                    simp only [Bool.and_eq_true, decide_eq_true_eq]
                    refine ⟨by rw [processAccepted_stream_index]; exact hvid, ?_⟩
                    simp only [NOPTS] at *
                    omega)]
                  rw [List.map_cons]
                have hnN : (processAccepted streams vidx outS pkt st1).1.dts ≠ NOPTS := by
                  simp only [NOPTS] at *
                  omega
                have hih := ih (nw + 1) (processAccepted streams vidx outS pkt st1).2 hvx hrange'
                    (by rw [hlast']; intro h; exact absurd h hnN)
                    (by rw [hlast']; intro _; exact hge)
                rw [hfilt]
                constructor
                · intro x hx hne
                  rcases List.mem_cons.mp hx with rfl | hx2
                  · exact hgt hne
                  · have := hih.1 x hx2 (by rw [hlast']; exact hnN)
                    rw [hlast'] at this
                    exact lt_trans (hgt hne) this
                · rw [List.chain'_cons']
                  refine ⟨fun y hy => ?_, hih.2⟩
                  have := hih.1 y (List.mem_of_mem_head? hy) (by rw [hlast']; exact hnN)
                  rw [hlast'] at this
                  exact this
            · -- non-video packet: filtered out; video state untouched
              have hlast2 := processAccepted_last_nonvideo streams vidx outS pkt st1 hvid
              have hctx2 : ((processAccepted streams vidx outS pkt st1).2.ctx.getD
                  vidx.toNat dfltCtx) = st.ctx.getD vidx.toNat dfltCtx := by
                rw [processAccepted_ctx]
                dsimp only
                refine getD_set_ne _ _ _ _ _ (fun he => hvid ?_)
                rw [he]
                omega
              have hfilt : videoDts vidx
                  ((processAccepted streams vidx outS pkt st1).1 ::
                    (relayLoop streams vidx outS start_sec end_sec writeOk (nw + 1) rest
                      (processAccepted streams vidx outS pkt st1).2).1) =
                  videoDts vidx
                    (relayLoop streams vidx outS start_sec end_sec writeOk (nw + 1) rest
                      (processAccepted streams vidx outS pkt st1).2).1 := by
                unfold videoDts
                rw [List.filter_cons_of_neg (by
                  simp only [Bool.and_eq_true, decide_eq_true_eq, not_and]
                  intro hcon
                  rw [processAccepted_stream_index] at hcon
                  exact absurd hcon hvid)]
              have hih := ih (nw + 1) (processAccepted streams vidx outS pkt st1).2 hvx hrange'
                  (by rw [hlast2, hctx2]; exact hA)
                  (by rw [hlast2]; exact hB)
              rw [hfilt]
              refine ⟨fun x hx hne => ?_, hih.2⟩
              have hlt := hih.1 x hx (by rw [hlast2]; exact hne)
              rw [hlast2] at hlt
              exact hlt
    · rw [relayLoop_cons_skip_kind _ _ _ _ _ _ _ _ _ _ hk]
      exact ih nw st hvx hrange' hA hB

/-- Control-flow characterization of `Trim`: a defined run either fails
before the relay loop (emitting nothing, reaching no trailer write), or runs
the loop and writes the trailer. -/
theorem trim_characterization (orc : Oracles) (inp : InputContainer)
    (startS endS : String) (r : TrimResult)
    (h : Trim orc inp startS endS = some r) :
    (r.emitted = [] ∧ r.exitKind = none ∧ TrimAction.writeTrailer ∉ r.trace) ∨
    (∃ s e ctx0 outS,
      parse_time startS = some s ∧ parse_time endS = some e ∧
      setupStreams orc.newStreamOk inp.streams 0 = some (ctx0, outS) ∧
      0 ≤ videoIdxScan inp.streams 0 (-1) ∧
      videoIdxScan inp.streams 0 (-1) < (inp.streams.length : Int) ∧
      r.outStreams = outS ∧
      r.exitKind.isSome = true ∧
      TrimAction.writeTrailer ∈ r.trace ∧
      r.emitted = (relayLoop inp.streams (videoIdxScan inp.streams 0 (-1)) outS s e
        orc.writeOk 0 inp.packets ⟨ctx0, false, NOPTS⟩).1) := by
  unfold Trim at h
  cases hs : parse_time startS with
  | none =>
    rw [hs] at h
    left
    cases Option.some.inj h
    exact ⟨rfl, rfl, by simp⟩
  | some s =>
    rw [hs] at h
    cases he : parse_time endS with
    | none => rw [he] at h; left; cases Option.some.inj h; exact ⟨rfl, rfl, by simp⟩
    | some e =>
      rw [he] at h
      dsimp only at h
      by_cases hwin : e ≤ s
      · rw [if_pos hwin] at h; left; cases Option.some.inj h; exact ⟨rfl, rfl, by simp⟩
      rw [if_neg hwin] at h
      by_cases h1 : orc.openInputOk = false
      · rw [if_pos h1] at h; left; cases Option.some.inj h; exact ⟨rfl, rfl, by simp⟩
      rw [if_neg h1] at h
      by_cases h2 : orc.allocOutputOk = false
      · rw [if_pos h2] at h; left; cases Option.some.inj h; exact ⟨rfl, rfl, by simp⟩
      rw [if_neg h2] at h
      by_cases h3 : orc.allocCtxOk = false
      · rw [if_pos h3] at h; left; cases Option.some.inj h; exact ⟨rfl, rfl, by simp⟩
      rw [if_neg h3] at h
      cases hsetup : setupStreams orc.newStreamOk inp.streams 0 with
      | none => rw [hsetup] at h; left; cases Option.some.inj h; exact ⟨rfl, rfl, by simp⟩
      | some p =>
        rw [hsetup] at h
        dsimp only at h
        by_cases h4 : orc.avioOpenOk = false
        · rw [if_pos h4] at h; left; cases Option.some.inj h; exact ⟨rfl, rfl, by simp⟩
        rw [if_neg h4] at h
        by_cases h5 : orc.writeHeaderOk = false
        · rw [if_pos h5] at h; left; cases Option.some.inj h; exact ⟨rfl, rfl, by simp⟩
        rw [if_neg h5] at h
        cases htb : seekStreamTB inp.streams (videoIdxScan inp.streams 0 (-1)) with
        | none => rw [htb] at h; exact absurd h (by simp)
        | some tb =>
          rw [htb] at h
          dsimp only at h
          have hbounds : 0 ≤ videoIdxScan inp.streams 0 (-1) ∧
              videoIdxScan inp.streams 0 (-1) < (inp.streams.length : Int) := by
            unfold seekStreamTB at htb
            by_cases hb : 0 ≤ videoIdxScan inp.streams 0 (-1) ∧
                videoIdxScan inp.streams 0 (-1) < (inp.streams.length : Int)
            · exact hb
            · rw [if_neg hb] at htb; exact absurd htb (by simp)
          by_cases h6 : orc.seekOk = false
          · rw [if_pos h6] at h; left; cases Option.some.inj h; exact ⟨rfl, rfl, by simp⟩
          rw [if_neg h6] at h
          have h7 := Option.some.inj h
          subst h7
          right
          exact ⟨s, e, p.1, p.2, rfl, rfl, rfl, hbounds.1, hbounds.2,
                 rfl, rfl, by simp, rfl⟩

/-- A helper: an element fetched with a default is a member or the default. -/
theorem getD_mem_or {α : Type} (l : List α) (i : Nat) (d : α) :
    l.getD i d ∈ l ∨ l.getD i d = d := by
  by_cases h : i < l.length
  · left
    rw [List.getD_eq_getElem?_getD, List.getElem?_eq_getElem h, Option.getD_some]
    exact List.getElem_mem h
  · right
    rw [List.getD_eq_getElem?_getD, List.getElem?_eq_none (Nat.le_of_not_lt h)]
    rfl

/-- C1 counterexample: a run in which the second emitted packet — an audio
packet — carries pts = 2 < 12 = dts, both defined.  The pts/dts repair is
not applied to audio streams. -/
theorem c1_every_stream_pts_ge_dts_cex :
    (Trim orcAll inpAudioLag "0:0" "59:0").map TrimResult.emitted =
      some [⟨1, 0, 0, 1, true, -1⟩, ⟨1, 2, 12, 1, false, -1⟩] ∧
    (⟨1, 2, 12, 1, false, -1⟩ : Packet).pts < (⟨1, 2, 12, 1, false, -1⟩ : Packet).dts ∧
    (⟨1, 2, 12, 1, false, -1⟩ : Packet).pts ≠ NOPTS ∧
    (⟨1, 2, 12, 1, false, -1⟩ : Packet).dts ≠ NOPTS := by
  refine ⟨by decide, by decide, by decide, by decide⟩

/-- C1 amended: the pts ≥ dts repair holds for every emitted packet of the
primary video stream (it is applied only there, lines 232-236). -/
theorem c1_video_pts_ge_dts (orc : Oracles) (inp : InputContainer)
    (startS endS : String) (r : TrimResult)
    (h : Trim orc inp startS endS = some r) :
    ∀ p ∈ r.emitted, (p.stream_index : Int) = videoIdxScan inp.streams 0 (-1) →
      p.pts ≠ NOPTS → p.dts ≠ NOPTS → p.dts ≤ p.pts := by
  intro p hp hv hpn hdn
  rcases trim_characterization orc inp startS endS r h with ⟨he, _, _⟩ |
    ⟨s, e, ctx0, outS, _, _, _, _, _, _, _, _, hem⟩
  · rw [he] at hp
    exact absurd hp (by simp)
  · rw [hem] at hp
    obtain ⟨pkt, st1, rfl, _⟩ := relay_emitted_shape inp.streams
      (videoIdxScan inp.streams 0 (-1)) outS s e orc.writeOk inp.packets 0
      ⟨ctx0, false, NOPTS⟩ p hp
    exact processAccepted_video_pts_ge_dts _ _ _ _ _ hv hpn hdn

theorem c1_video_pts_ge_dts_witness :
    (⟨0, 0, 0, 1, true, -1⟩ : Packet).dts ≤ (⟨0, 0, 0, 1, true, -1⟩ : Packet).pts :=
  c1_video_pts_ge_dts orcAll inpGate "0:0" "59:0" resGate (by decide)
    ⟨0, 0, 0, 1, true, -1⟩ (by decide) (by decide) (by decide) (by decide)

/-- C2: the container trailer is written exactly when the relay loop is
reached, whichever way it exits — end of input, end of window, or a packet
write failure. -/
theorem c2_trailer_always_written (orc : Oracles) (inp : InputContainer)
    (startS endS : String) (r : TrimResult)
    (h : Trim orc inp startS endS = some r) :
    r.exitKind.isSome = true ↔ TrimAction.writeTrailer ∈ r.trace := by
  rcases trim_characterization orc inp startS endS r h with ⟨_, hek, hnt⟩ |
    ⟨_, _, _, _, _, _, _, _, _, _, hsome, hmem, _⟩
  · constructor
    · intro hk
      rw [hek] at hk
      exact absurd hk (by simp)
    · intro hm
      exact absurd hm hnt
  · exact iff_of_true hsome hmem

theorem c2_trailer_always_written_witness :
    TrimAction.writeTrailer ∈ resGateBadWrite.trace :=
  (c2_trailer_always_written orcBadWrite inpGate "0:0" "59:0" resGateBadWrite
    (by decide)).mp (by decide)

/-- C3: in any defined run, the defined dts values emitted on the primary
video stream are strictly increasing (int64 inputs). -/
theorem c3_video_dts_strict_mono (orc : Oracles) (inp : InputContainer)
    (startS endS : String) (r : TrimResult)
    (h : Trim orc inp startS endS = some r)
    (hrange : ∀ p ∈ inp.packets, NOPTS ≤ p.dts) :
    List.Chain' (· < ·) (videoDts (videoIdxScan inp.streams 0 (-1)) r.emitted) := by
  rcases trim_characterization orc inp startS endS r h with ⟨he, _, _⟩ |
    ⟨s, e, ctx0, outS, _, _, hsetup, hv0, _, _, _, _, hem⟩
  · rw [he]
    simp [videoDts]
  · rw [hem]
    refine (relay_video_dts_mono inp.streams (videoIdxScan inp.streams 0 (-1)) outS s e
      orc.writeOk inp.packets 0 ⟨ctx0, false, NOPTS⟩ hv0 hrange ?_ ?_).2
    · intro _
      left
      rcases getD_mem_or ctx0 (videoIdxScan inp.streams 0 (-1)).toNat dfltCtx with hm | hd
      · exact (setupStreams_ctx_unset orc.newStreamOk inp.streams 0 ctx0 outS hsetup _ hm).1
      · rw [hd]
        rfl
    · intro hne
      exact absurd rfl hne

theorem c3_video_dts_strict_mono_witness :
    List.Chain' (· < ·) (videoDts (videoIdxScan inpGate.streams 0 (-1)) resGate.emitted) :=
  c3_video_dts_strict_mono orcAll inpGate "0:0" "59:0" resGate (by decide) (by decide)

/-- C4: in any defined run, the first packet emitted on the primary video
stream has its keyframe flag set. -/
theorem c4_first_video_packet_keyframe (orc : Oracles) (inp : InputContainer)
    (startS endS : String) (r : TrimResult)
    (h : Trim orc inp startS endS = some r) (p : Packet)
    (hfind : r.emitted.find?
      (fun q => decide ((q.stream_index : Int) = videoIdxScan inp.streams 0 (-1))) =
        some p) :
    p.flags_key = true := by
  rcases trim_characterization orc inp startS endS r h with ⟨he, _, _⟩ |
    ⟨s, e, ctx0, outS, _, _, _, _, _, _, _, _, hem⟩
  · rw [he] at hfind
    exact absurd hfind (by simp)
  · rw [hem] at hfind
    exact relay_first_video_key inp.streams (videoIdxScan inp.streams 0 (-1)) outS s e
      orc.writeOk inp.packets 0 ⟨ctx0, false, NOPTS⟩ rfl p hfind

theorem c4_first_video_packet_keyframe_witness :
    (⟨0, 0, 0, 1, true, -1⟩ : Packet).flags_key = true :=
  c4_first_video_packet_keyframe orcAll inpGate "0:0" "59:0" resGate (by decide)
    ⟨0, 0, 0, 1, true, -1⟩ (by decide)

/-- C5 counterexample: when the first accepted packet of a stream carries no
pts, the first emitted packet does not have pts = 0, and the origin is
captured a second time: the stored origin dts changes from 5 to 6. -/
theorem c5_origin_once_cex :
    (Trim orcAll inpNoPts "0:0" "59:0").map TrimResult.emitted =
      some [⟨1, NOPTS, 0, 1, false, -1⟩, ⟨1, 0, 0, 1, false, -1⟩] ∧
    (⟨1, NOPTS, 0, 1, false, -1⟩ : Packet).pts ≠ 0 ∧
    ((relayLoop inpNoPts.streams 0 [⟨1, 10⟩, ⟨1, 20⟩] 0 3540 (fun _ => true) 0
        [⟨1, NOPTS, 5, 1, false, 7⟩] initTwoStreams).2.1.ctx.getD 1 dfltCtx).start_dts = 5 ∧
    ((relayLoop inpNoPts.streams 0 [⟨1, 10⟩, ⟨1, 20⟩] 0 3540 (fun _ => true) 0
        inpNoPts.packets initTwoStreams).2.1.ctx.getD 1 dfltCtx).start_dts = 6 := by
  refine ⟨by decide, by decide, by decide, by decide⟩

/-- C5 amended: once a stream's origin is set (start_pts defined) it is never
modified; and on a stream all of whose packets carry defined pts and dts, the
first emitted packet has pts = 0 and dts = 0. -/
theorem c5_origin_capture_amended :
    (∀ (streams : List AVStream) (vidx : Int) (outS : List OutStream)
       (start_sec end_sec : Int) (writeOk : Nat → Bool) (pkts : List Packet)
       (nw : Nat) (st : RelayState) (sIdx : Nat),
       (st.ctx.getD sIdx dfltCtx).start_pts ≠ NOPTS →
       ((relayLoop streams vidx outS start_sec end_sec writeOk nw pkts st).2.1.ctx.getD
          sIdx dfltCtx) = st.ctx.getD sIdx dfltCtx) ∧
    (∀ (orc : Oracles) (inp : InputContainer) (startS endS : String) (r : TrimResult)
       (sIdx : Nat),
       Trim orc inp startS endS = some r →
       (∀ p ∈ inp.packets, p.stream_index = sIdx → p.pts ≠ NOPTS ∧ p.dts ≠ NOPTS) →
       ∀ p, r.emitted.find? (fun q => q.stream_index == sIdx) = some p →
         p.pts = 0 ∧ p.dts = 0) := by
  constructor
  · intro streams vidx outS start_sec end_sec writeOk pkts nw st sIdx hset
    exact relay_ctx_stable streams vidx outS start_sec end_sec writeOk pkts nw st sIdx hset
  · intro orc inp startS endS r sIdx h hdef p hfind
    rcases trim_characterization orc inp startS endS r h with ⟨he, _, _⟩ |
      ⟨s, e, ctx0, outS, _, _, hsetup, _, _, _, _, _, hem⟩
    · rw [he] at hfind
      exact absurd hfind (by simp)
    · rw [hem] at hfind
      refine relay_first_emitted_zero inp.streams (videoIdxScan inp.streams 0 (-1)) outS
        s e orc.writeOk inp.packets 0 ⟨ctx0, false, NOPTS⟩ sIdx ?_ (fun _ => rfl) hdef p hfind
      rcases getD_mem_or ctx0 sIdx dfltCtx with hm | hd
      · exact (setupStreams_ctx_unset orc.newStreamOk inp.streams 0 ctx0 outS hsetup _ hm).1
      · rw [hd]
        rfl

theorem c5_origin_capture_amended_witness :
    (⟨1, 0, 0, 1, false, -1⟩ : Packet).pts = 0 ∧
    (⟨1, 0, 0, 1, false, -1⟩ : Packet).dts = 0 :=
  c5_origin_capture_amended.2 orcAll inpGate "0:0" "59:0" resGate 1 (by decide)
    (by decide) ⟨1, 0, 0, 1, false, -1⟩ (by decide)

/-- C6 counterexample: with two video streams the bootstrap designates the
*last* one (index 2), not the first (index 0); the seek is issued against
stream 2. -/
theorem c6_primary_first_video_cex :
    videoIdxScan threeStreams 0 (-1) = 2 ∧ firstVideoIdx threeStreams = 0 ∧
    ((2 : Int) ≠ 0) ∧
    (Trim orcAll ⟨threeStreams, []⟩ "0:0" "1:0").map TrimResult.trace =
      some [TrimAction.openInput, TrimAction.allocOutput, TrimAction.openOutputFile,
        TrimAction.writeHeader, TrimAction.seek 2 0, TrimAction.writeTrailer,
        TrimAction.cleanup] := by
  refine ⟨by decide, by decide, by decide, by decide⟩

/-- C6 amended: the primary stream is the *last* video stream encountered
(`-1` when no video stream exists). -/
theorem c6_primary_last_video :
    (∀ (ss : List AVStream) (i : Nat) (hi : i < ss.length),
       (ss.get ⟨i, hi⟩).kind = MediaKind.video →
       (∀ j (hj : j < ss.length), i < j → (ss.get ⟨j, hj⟩).kind ≠ MediaKind.video) →
       videoIdxScan ss 0 (-1) = (i : Int)) ∧
    (∀ ss : List AVStream, (∀ s ∈ ss, s.kind ≠ MediaKind.video) →
       videoIdxScan ss 0 (-1) = -1) := by
  constructor
  · intro ss i hi hv hl
    have h := videoIdxScan_last ss 0 (-1) i hi hv hl
    simpa using h
  · intro ss h
    exact videoIdxScan_no_video ss 0 (-1) h

theorem c6_primary_last_video_witness :
    videoIdxScan threeStreams 0 (-1) = (2 : Int) :=
  c6_primary_last_video.1 threeStreams 2 (by decide) (by decide)
    (by
      intro j hj h2
      exfalso
      have hlen : threeStreams.length = 3 := rfl
      omega)

/-- C7: on a container with no video stream, the stream scan leaves the
sentinel `-1` and the seek-target computation reads
`in->streams[video_stream_idx]` out of bounds: the run is undefined
behaviour (`none` in the model), contradicting the claim that no
out-of-bounds stream lookup occurs. -/
theorem c7_no_video_oob :
    Trim orcAll inpAudioOnly "0:0" "1:0" = none ∧
    videoIdxScan inpAudioOnly.streams 0 (-1) = -1 := by
  refine ⟨by decide, by decide⟩

/-- C8 counterexample: `sscanf "%d:%d"` accepts a negative second field, so
parse_time returns a negative number of seconds; it also accepts trailing
junk after the two fields. -/
theorem c8_parse_time_cex :
    parse_time "0:-1" = some (-1) ∧ ((-1 : Int) < 0) ∧
    parse_time "1:2x" = some 62 := by
  refine ⟨by decide, by decide, by decide⟩

/-- C8 amended: for every canonically formatted `mm:ss` input (the `%02d:%02d`
strings produced by `Create`), parse_time returns exactly m*60+s, which is
non-negative; an input with no ':'-separated second field is rejected (the
process exits). -/
theorem c8_parse_time_amended :
    (∀ m s : Nat, parse_time (fmtTime m s) = some ((m : Int) * 60 + (s : Int)) ∧
      0 ≤ (m : Int) * 60 + (s : Int)) ∧
    parse_time "10" = none := by
  constructor
  · intro m s
    refine ⟨parse_time_fmtTime m s, by omega⟩
  · decide

/-- C9: with parsed start ≥ parsed end, Trim fails with the invalid-window
error before any external call: the action trace is empty, so no container
is opened and no output file is touched. -/
theorem c9_invalid_window_early (orc : Oracles) (inp : InputContainer)
    (startS endS : String) (a b : Int)
    (hsa : parse_time startS = some a) (hsb : parse_time endS = some b)
    (hab : b ≤ a) :
    Trim orc inp startS endS =
      some ⟨TrimOutcome.err TrimError.invalidWindow, [], [], [], none⟩ := by
  unfold Trim
  rw [hsa, hsb]
  dsimp only
  rw [if_pos hab]

theorem c9_invalid_window_early_witness :
    Trim orcAll inpGate "0:30" "0:10" =
      some ⟨TrimOutcome.err TrimError.invalidWindow, [], [], [], none⟩ :=
  c9_invalid_window_early orcAll inpGate "0:30" "0:10" 30 10 (by decide) (by decide)
    (by decide)

/-- For a list whose first `i+1` elements all satisfy `P`, the `i`-th element
of the filtered list is the `i`-th element of the list. -/
theorem list_filter_prefix_getD {α : Type} (P : α → Bool) (d : α) :
    ∀ (l : List α) (i : Nat), i < l.length →
      (∀ j (hj : j < l.length), j ≤ i → P (l.get ⟨j, hj⟩) = true) →
      i < (l.filter P).length ∧ (l.filter P).getD i d = l.getD i d := by
  intro l
  induction l with
  | nil => intro i hi; exact absurd hi (by simp)
  | cons a t ih =>
    intro i hi hall
    have ha : P a = true := hall 0 (by simp) (by omega)
    rw [List.filter_cons_of_pos ha]
    cases i with
    | zero => exact ⟨by simp, rfl⟩
    | succ i =>
      have hrec := ih i (by simpa using Nat.lt_of_succ_lt_succ hi)
        (fun j hj hji => by
          have h := hall (j + 1) (by simpa using Nat.succ_lt_succ hj)
            (Nat.succ_le_succ hji)
          simpa using h)
      refine ⟨by simpa using Nat.succ_lt_succ hrec.1, ?_⟩
      rw [List.getD_cons_succ, List.getD_cons_succ]
      exact hrec.2

theorem getD_map {α β : Type} (f : α → β) (l : List α) (i : Nat) (d : β) (d' : α)
    (h : i < l.length) : (l.map f).getD i d = f (l.getD i d') := by
  rw [List.getD_eq_getElem?_getD, List.getElem?_map, List.getElem?_eq_getElem h,
      List.getD_eq_getElem?_getD, List.getElem?_eq_getElem h]
  rfl

/-- C10: when the copied (audio/video) streams form a contiguous prefix of
the source stream indices, every emitted packet's unmodified source stream
index is a valid index into the output stream array, and the output stream
there was created from that very source stream (same time base and codec
parameters). -/
theorem c10_stream_index_routing (orc : Oracles) (inp : InputContainer)
    (startS endS : String) (r : TrimResult)
    (h : Trim orc inp startS endS = some r)
    (hpre : ∀ (i j : Nat) (hi : i < inp.streams.length) (hj : j < inp.streams.length),
      i ≤ j → isCopied (inp.streams.get ⟨j, hj⟩) = true →
      isCopied (inp.streams.get ⟨i, hi⟩) = true) :
    ∀ p ∈ r.emitted, p.stream_index < r.outStreams.length ∧
      r.outStreams.getD p.stream_index dfltOut =
        ⟨(inp.streams.getD p.stream_index dfltStream).time_base,
         (inp.streams.getD p.stream_index dfltStream).codecpar⟩ := by
  intro p hp
  rcases trim_characterization orc inp startS endS r h with ⟨he, _, _⟩ |
    ⟨s, e, ctx0, outS, _, _, hsetup, _, _, houtS, _, _, hem⟩
  · rw [he] at hp
    exact absurd hp (by simp)
  · rw [hem] at hp
    obtain ⟨pkt, st1, rfl, hkind⟩ := relay_emitted_shape inp.streams
      (videoIdxScan inp.streams 0 (-1)) outS s e orc.writeOk inp.packets 0
      ⟨ctx0, false, NOPTS⟩ _ hp
    rw [processAccepted_stream_index]
    have hcop : isCopied (inp.streams.getD pkt.stream_index dfltStream) = true := by
      unfold isCopied
      simpa using hkind
    have hin : pkt.stream_index < inp.streams.length := by
      by_contra hge
      rw [List.getD_eq_getElem?_getD, List.getElem?_eq_none (Nat.le_of_not_lt hge)] at hcop
      exact absurd hcop (by decide)
    have hallpre : ∀ j (hj : j < inp.streams.length), j ≤ pkt.stream_index →
        isCopied (inp.streams.get ⟨j, hj⟩) = true := by
      intro j hj hji
      refine hpre j pkt.stream_index hj hin hji ?_
      rw [List.getD_eq_getElem?_getD, List.getElem?_eq_getElem hin, Option.getD_some] at hcop
      exact hcop
    obtain ⟨hlen, hgetD⟩ := list_filter_prefix_getD isCopied dfltStream inp.streams
      pkt.stream_index hin hallpre
    rw [houtS, setupStreams_outS orc.newStreamOk inp.streams 0 ctx0 outS hsetup]
    constructor
    · rw [List.length_map]
      exact hlen
    · rw [getD_map _ _ _ _ dfltStream hlen, hgetD]

theorem c10_stream_index_routing_witness :
    (1 : Nat) < resGate.outStreams.length ∧
    resGate.outStreams.getD 1 dfltOut =
      ⟨(inpGate.streams.getD 1 dfltStream).time_base,
       (inpGate.streams.getD 1 dfltStream).codecpar⟩ :=
  c10_stream_index_routing orcAll inpGate "0:0" "59:0" resGate (by decide)
    (by
      intro i j hi hj hij hcop
      have hlen : inpGate.streams.length = 2 := rfl
      have hi2 : i < 2 := by omega
      interval_cases i
      · show isCopied vidStream = true
        decide
      · show isCopied audStream = true
        decide)
    ⟨1, 0, 0, 1, false, -1⟩ (by decide)
